import Mathlib

/-!
Verification of the Conversation Orchestrator of a single-page
conversational-assistant client (source: src/assets/app.js).

The embedding models the JavaScript module state (history, transcript,
notice feed, status line, in-flight flag, voice flags, input buffer and
the durable store payload) as an explicit record, and each source
function as a pure state transformer.  Asynchronous boundaries (the
fetch round-trip, speech-recognition engine callbacks, the voice toggle
click handler) are modelled as events of a small-step trace semantics.
DOM rendering is projected to the list of message payloads appended to
the conversation element; CSS classes, scrolling and the speech-synthesis
voice selection are presentation and out of scope.
-/

/-- A JavaScript value as it can flow through the program: JSON values
plus the `undefined` produced by reading an absent property. -/
inductive JVal where
  | null
  | undefined
  | bool (b : Bool)
  | num (n : Int)
  | str (s : String)
  | arr (elems : List JVal)
  | obj (fields : List (String × JVal))

/-- JavaScript truthiness of a value (`if (v)`). -/
def jsTruthy : JVal → Bool
  | .null => false
  | .undefined => false
  | .bool b => b
  | .num n => n != 0
  | .str s => s != ""
  | .arr _ => true
  | .obj _ => true

/-- `true` for `null` and `undefined`: reading a property of such a
value, or destructuring it, throws a TypeError. -/
def jsNullish : JVal → Bool
  | .null => true
  | .undefined => true
  | _ => false

/-- Property read `v.k`: field lookup on an object, `undefined` on any
other non-nullish value (the program only reads properties of values it
has already successfully read properties of, or guards against). -/
def jGet (v : JVal) (k : String) : JVal :=
  match v with
  | .obj fields => match fields.lookup k with
                   | some w => w
                   | none => .undefined
  | _ => .undefined

/-- Strict equality test `v === s` against a string literal. -/
def isStrEq (v : JVal) (s : String) : Bool :=
  match v with
  | .str t => t == s
  | _ => false

/-- Strict equality test `v !== false` is the negation of this:
`true` exactly for the boolean literal `false`. -/
def isFalseLit : JVal → Bool
  | .bool false => true
  | _ => false

/-- `String.prototype.trim`: strip leading and trailing whitespace. -/
def jsTrim (s : String) : String :=
  ⟨((s.data.dropWhile Char.isWhitespace).reverse.dropWhile Char.isWhitespace).reverse⟩

mutual

/-- String coercion of a value, as in a template literal.  Array
elements that are nullish stringify to the empty string, matching
`Array.prototype.join`. -/
def jToDisplay : JVal → String
  | .null => "null"
  | .undefined => "undefined"
  | .bool b => if b then "true" else "false"
  | .num n => toString n
  | .str s => s
  | .arr xs => String.intercalate "," (jToDisplayElems xs)
  | .obj _ => "[object Object]"

/-- Displays of the elements of an array value, in order. -/
def jToDisplayElems : List JVal → List String
  | [] => []
  | v :: vs =>
      (if jsNullish v then "" else jToDisplay v) :: jToDisplayElems vs

end

/-- The module-level mutable state of src/assets/app.js together with
the DOM projections the program writes. `transcript` is the ordered
list of message payloads appended to the conversation element, `intel`
the current children of the notice feed, `statusState` / `statusCopy`
the status indicator dataset and text, `stored` the payload last
written under the fixed localStorage key. -/
structure AppState where
  history : List JVal
  transcript : List JVal
  intel : List JVal
  statusState : String
  statusCopy : String
  isProcessing : Bool
  voiceEnabled : Bool
  recognitionCreated : Bool
  voiceDisabled : Bool
  inputValue : String
  stored : Option (List JVal)

/-- State at script evaluation: empty history, nothing rendered, not
processing, voice off, no recognition handle. -/
def initState : AppState :=
  { history := []
    transcript := []
    intel := []
    statusState := "idle"
    statusCopy := "Systems Idle"
    isProcessing := false
    voiceEnabled := false
    recognitionCreated := false
    voiceDisabled := false
    inputValue := ""
    stored := none }

/-- `updateStatus(status, copy)`: overwrite the status indicator and
the status line. -/
def updateStatus (st : AppState) (status copy : String) : AppState :=
  { st with statusState := status, statusCopy := copy }

/-- `renderMessage(payload)`: append the message payload to the
conversation element (avatar text, CSS classes and scrolling are
presentation and not modelled). -/
def renderMessage (st : AppState) (m : JVal) : AppState :=
  { st with transcript := st.transcript ++ [m] }

/-- `pushIntel(items)`: no-op on an empty list, otherwise replace the
children of the notice feed with the given items. -/
def pushIntel (st : AppState) (items : List JVal) : AppState :=
  if items.length = 0 then st else { st with intel := items }

/-- A message object literal `{ role, content }`. -/
def mkMessage (role : String) (content : JVal) : JVal :=
  .obj [("role", .str role), ("content", content)]

/-- `slice(-n)`: the most recent at most `n` entries, in order. -/
def recentWindow (n : Nat) (h : List JVal) : List JVal :=
  h.drop (h.length - n)

/-- `persistHistory()`: serialize the last 20 history entries under the
fixed key. A store write failure is swallowed by the source try/catch;
the model records the payload of a successful write. -/
def persistHistory (st : AppState) : AppState :=
  { st with stored := some (recentWindow 20 st.history) }

/-- What `localStorage.getItem` + `JSON.parse` can yield for the fixed
key: `absent` covers a missing key and an empty string (both falsy, the
source returns early on `!raw`), `malformed` a raw string on which
`JSON.parse` throws, `value v` a successful parse. -/
inductive StoredValue where
  | absent
  | malformed
  | value (v : JVal)

/-- ASCII whitespace as DOMTokenList token validation sees it: tab,
line feed, form feed, carriage return, space. -/
def isDomWhitespace (c : Char) : Bool :=
  c == '\t' || c == '\n' || c == '\x0C' || c == '\r' || c == ' '

/-- Whether `renderMessage(entry)` throws. Its parameter destructuring
throws a TypeError on a nullish entry; otherwise
`classList.add(role === "assistant" ? "assistant" : role)` throws a
SyntaxError when the token (the string coercion of a role other than
the literal string `assistant`) is empty, and an InvalidCharacterError
when it contains ASCII whitespace (so an object role, which coerces to
`[object Object]`, also throws). The remaining statements (avatar
text, paragraph text, append) coerce and cannot throw. -/
def renderThrows (v : JVal) : Bool :=
  jsNullish v ||
  (!isStrEq (jGet v "role") "assistant" &&
    (jToDisplay (jGet v "role") == "" ||
     (jToDisplay (jGet v "role")).data.any isDomWhitespace))

/-- Notice feed snapshot pushed after a successful restoration of a
non-empty history. -/
def restoreNotice (hist : List JVal) : List JVal :=
  [.str "Historical context restored.",
   .str ("Loaded " ++ toString hist.length ++ " transmissions."),
   .str "Jarvis is ready to continue the mission."] ++
  (recentWindow 3 hist).map (fun entry =>
    .str ((if isStrEq (jGet entry "role") "user" then "You" else "Jarvis")
          ++ ": " ++ jToDisplay (jGet entry "content")))

/-- `restoreHistory()`: read the fixed key; return on a falsy raw
value; on parse success set history to the parsed value when it is an
array, else to `[]`; replay each entry through `renderMessage`, which
throws on a nullish entry (destructuring) or on a role whose class
token is invalid (see `renderThrows`), stopping replay there (the
throwing entry is not appended) and resetting history to `[]` in the
catch; then, if the history is non-empty, push the restoration
notice. -/
def restoreHistory (st : AppState) (r : StoredValue) : AppState :=
  match r with
  | .absent => st
  | .malformed => { st with history := [] }
  | .value v =>
      let hist := match v with
                  | .arr xs => xs
                  | _ => []
      let st1 := { st with history := hist }
      if hist.any renderThrows then
        { st1 with
            transcript := st1.transcript ++ hist.takeWhile (fun x => !renderThrows x),
            history := [] }
      else
        let st2 := { st1 with transcript := st1.transcript ++ hist }
        if hist.length = 0 then st2
        else pushIntel st2 (restoreNotice hist)

/-- `toggleVoiceInput()`: on an unsupported host, permanently disable
the toggle; otherwise lazily create the single recognition handle, then
stop (setting status idle / Voice Link Offline) if voice is enabled,
else start. Engine callbacks arrive as separate events. -/
def toggleVoiceInput (st : AppState) (supported : Bool) : AppState :=
  if !supported then { st with voiceDisabled := true }
  else
    let st := { st with recognitionCreated := true }
    if st.voiceEnabled then
      updateStatus { st with voiceEnabled := false } "idle" "Voice Link Offline"
    else
      { st with voiceEnabled := true }

/-- `recognition.onstart`: status becomes thinking / Listening. -/
def recognitionOnStart (st : AppState) : AppState :=
  updateStatus st "thinking" "Listening"

/-- `recognition.onend`: reset status to idle / Systems Idle unless a
request is in flight. -/
def recognitionOnEnd (st : AppState) : AppState :=
  if st.isProcessing then st else updateStatus st "idle" "Systems Idle"

/-- `recognition.onerror`: same status reconciliation as `onend`. -/
def recognitionOnError (st : AppState) : AppState :=
  if st.isProcessing then st else updateStatus st "idle" "Systems Idle"

/-- The outbound request body `{ message, history }`. -/
structure FetchRequest where
  message : String
  history : List JVal

/-- How the awaited round-trip to `/api/assistant` can end:
`transportError m` when `fetch` rejects with an Error whose message is
`m`; `response status body` when it resolves, with `body` the result of
`response.json()` (`Except.error m` when the body fails to parse). -/
inductive FetchOutcome where
  | transportError (msg : String)
  | response (status : Nat) (body : Except String JVal)

/-- `response.ok`: status in the 200-299 range. -/
def responseOk (status : Nat) : Bool :=
  200 ≤ status && status < 300

/-- `error.message || String(error)` for the error reaching the catch
block: the message of the transport error or body-parse error, the
`Request failed with status N` text thrown on a non-ok response, or the
TypeError message from reading `.reply` off a nullish body. An Error
with an empty message stringifies to `Error`. -/
def failureDescription : FetchOutcome → String
  | .transportError m => if m = "" then "Error" else m
  | .response status body =>
      if responseOk status = false then
        "Request failed with status " ++ toString status
      else match body with
           | .error m => if m = "" then "Error" else m
           | .ok _ => "Cannot read properties of null (reading 'reply')"

/-- The transient assistant payload rendered while the request is in
flight (`speaking: true` is presentation). -/
def placeholderMessage : JVal := mkMessage "assistant" (.str "•••")

/-- The fixed apology payload rendered on the failure path. -/
def apologyMessage : JVal :=
  mkMessage "assistant"
    (.str "Systems encountered turbulence processing that request. Review logs and try again.")

/-- `data.reply || "I'm here."`: the assistant content, falling back to
the fixed string on a falsy reply. -/
def replyContent (data : JVal) : JVal :=
  if jsTruthy (jGet data "reply") then jGet data "reply" else .str "I'm here."

/-- The synchronous prefix of `sendCommand(message)`, up to and
including dispatching the fetch: the two guards, entering the thinking
status, the optimistic user turn (append, render, persist, clear the
input), the placeholder render, and the request body. Returns `none`
when a guard rejected the call. -/
def sendCommandStart (st : AppState) (message : String) :
    AppState × Option FetchRequest :=
  if message = "" ∨ st.isProcessing = true then (st, none)
  else
    let trimmed := jsTrim message
    if trimmed = "" then (st, none)
    else
      let st := { st with isProcessing := true }
      let st := updateStatus st "thinking" "Processing"
      let userPayload := mkMessage "user" (.str trimmed)
      let st := { st with history := st.history ++ [userPayload] }
      let st := renderMessage st userPayload
      let st := persistHistory st
      let st := { st with inputValue := "" }
      let st := renderMessage st placeholderMessage
      (st, some { message := trimmed, history := recentWindow 12 st.history })

/-- The catch block of `sendCommand`: remove the placeholder (the last
rendered node at this point), render the fixed apology without touching
history, and replace the notice feed with the generic label and the
failure description. -/
def sendCommandFailure (st : AppState) (desc : String) : AppState :=
  let st := { st with transcript := st.transcript.dropLast }
  let st := renderMessage st apologyMessage
  pushIntel st [.str "Error encountered.", .str desc]

/-- The finally block of `sendCommand`: clear the in-flight flag, then
resolve the status from the current voice flag. -/
def sendCommandFinally (st : AppState) : AppState :=
  let st := { st with isProcessing := false }
  if st.voiceEnabled then updateStatus st "thinking" "Listening"
  else updateStatus st "idle" "Systems Idle"

/-- The continuation of `sendCommand` after the awaited round-trip:
the success path (append the assistant turn, swap the placeholder for
it, persist, optionally replace the notices, optionally override the
status copy with the intent, speak unless `data.speak` is literally
`false`) when the response is ok, its body parses and is not nullish;
the catch block otherwise; then the finally block. The second component
is the text passed to `speak`, `none` when speech is not invoked. -/
def sendCommandResolve (st : AppState) (o : FetchOutcome) :
    AppState × Option JVal :=
  match o with
  | .response status (.ok data) =>
      if responseOk status = true ∧ jsNullish data = false then
        let assistantPayload := mkMessage "assistant" (replyContent data)
        let st := { st with history := st.history ++ [assistantPayload] }
        let st := { st with transcript := st.transcript.dropLast }
        let st := renderMessage st assistantPayload
        let st := persistHistory st
        let st := match jGet data "actions" with
                  | .arr xs => if xs.length ≠ 0 then pushIntel st xs else st
                  | _ => st
        let st := if jsTruthy (jGet data "intent") then
                    { st with statusCopy := "Intent: " ++ jToDisplay (jGet data "intent") }
                  else st
        let spoken := if isFalseLit (jGet data "speak") then none
                      else some (replyContent data)
        (sendCommandFinally st, spoken)
      else
        (sendCommandFinally
          (sendCommandFailure st (failureDescription (.response status (.ok data)))), none)
  | o =>
      (sendCommandFinally (sendCommandFailure st (failureDescription o)), none)

/-- What one un-interleaved call to `sendCommand` produces: the final
state, the outbound request if one was sent, and the text spoken if
speech was invoked. -/
structure SubmitOutput where
  state : AppState
  request : Option FetchRequest
  spoken : Option JVal

/-- A complete `sendCommand(message)` call whose awaited round-trip
ends with outcome `o`, with no other event interleaved. -/
def sendCommand (st : AppState) (message : String) (o : FetchOutcome) :
    SubmitOutput :=
  match sendCommandStart st message with
  | (st1, none) => ⟨st1, none, none⟩
  | (st1, some req) =>
      let r := sendCommandResolve st1 o
      ⟨r.1, some req, r.2⟩

/-- The asynchronous boundaries of the program, as trace events:
a form submission with the typed text, the resumption of the in-flight
fetch with its outcome, a click on the voice toggle (parameterised by
host support), the recognition engine callbacks, and a recognition
result carrying a transcript. -/
inductive UiEvent where
  | submitStart (msg : String)
  | submitResolve (o : FetchOutcome)
  | voiceToggle (supported : Bool)
  | recStart
  | recEnd
  | recError
  | recResult (txt : String)

/-- One small step of the event loop. A `submitResolve` with no request
in flight has no continuation to run; a recognition result with a
non-empty trimmed transcript fills the input and dispatches a submit. -/
def step (st : AppState) (e : UiEvent) : AppState :=
  match e with
  | .submitStart msg => (sendCommandStart st msg).1
  | .submitResolve o =>
      if st.isProcessing then (sendCommandResolve st o).1 else st
  | .voiceToggle supported => toggleVoiceInput st supported
  | .recStart => recognitionOnStart st
  | .recEnd => recognitionOnEnd st
  | .recError => recognitionOnError st
  | .recResult txt =>
      let t := jsTrim txt
      if t = "" then st
      else (sendCommandStart { st with inputValue := t } t).1

/-- Run a sequence of events from a state. -/
def run (st : AppState) (evs : List UiEvent) : AppState :=
  evs.foldl step st

/-- `role`/`content` pair with string fields, the Message shape of the
persisted records. -/
def isMessageShaped (v : JVal) : Bool :=
  (match jGet v "role" with | .str _ => true | _ => false) &&
  (match jGet v "content" with | .str _ => true | _ => false)

/-- A history entry whose content is the transient placeholder text. -/
def hasPlaceholderContent (m : JVal) : Bool :=
  isStrEq (jGet m "content") "•••"

/-- A voice-toggle click that will stop an active voice session while a
request is in flight (the one event that writes a non-thinking status
during the in-flight window). -/
def isVoiceOffToggleInFlight (st : AppState) (e : UiEvent) : Bool :=
  match e with
  | .voiceToggle supported => supported && st.isProcessing && st.voiceEnabled
  | _ => false

/-- A round-trip outcome the source treats through the catch block
because of the remote call itself: a transport error or a non-ok
response status. -/
def isRemoteFailure : FetchOutcome → Bool
  | .transportError _ => true
  | .response status _ => !responseOk status

/-- Amended restoration contract, stated declaratively: an absent key
leaves history alone, an unparseable value or a non-array parse resets
it to empty, and an array is loaded verbatim unless replaying one of
its elements throws — the element is nullish, or its role is neither
the string `assistant` nor a value coercing to a valid class token —
in which case history is reset to empty. -/
def restoreHistorySpec (old : List JVal) : StoredValue → List JVal
  | .absent => old
  | .malformed => []
  | .value (.arr xs) => if xs.any renderThrows then [] else xs
  | .value _ => []

lemma sendCommandFinally_fields (st : AppState) :
    (sendCommandFinally st).isProcessing = false ∧
    (sendCommandFinally st).statusState = (if st.voiceEnabled then "thinking" else "idle") ∧
    (sendCommandFinally st).statusCopy =
      (if st.voiceEnabled then "Listening" else "Systems Idle") ∧
    (sendCommandFinally st).voiceEnabled = st.voiceEnabled ∧
    (sendCommandFinally st).history = st.history ∧
    (sendCommandFinally st).transcript = st.transcript ∧
    (sendCommandFinally st).intel = st.intel ∧
    (sendCommandFinally st).stored = st.stored := by
  by_cases h : st.voiceEnabled <;>
    simp [sendCommandFinally, updateStatus, h]

lemma sendCommandStart_pass (st : AppState) (msg : String)
    (h1 : msg ≠ "") (h2 : st.isProcessing = false) (h3 : jsTrim msg ≠ "") :
    sendCommandStart st msg =
      ({ st with isProcessing := true,
                 statusState := "thinking", statusCopy := "Processing",
                 history := st.history ++ [mkMessage "user" (.str (jsTrim msg))],
                 transcript := st.transcript ++
                   [mkMessage "user" (.str (jsTrim msg)), placeholderMessage],
                 stored := some (recentWindow 20
                   (st.history ++ [mkMessage "user" (.str (jsTrim msg))])),
                 inputValue := "" },
       some ⟨jsTrim msg,
             recentWindow 12 (st.history ++ [mkMessage "user" (.str (jsTrim msg))])⟩) := by
  simp only [sendCommandStart, updateStatus, renderMessage, persistHistory]
  rw [if_neg (by simp [h1, h2]), if_neg h3]
  simp

/-- Claim C3: a second submit while a request is in flight is a
complete no-op: the state is returned untouched, no request goes out
and nothing is spoken. -/
theorem C3_inflight_noop (st : AppState) (msg : String) (o : FetchOutcome)
    (h : st.isProcessing = true) :
    sendCommand st msg o = ⟨st, none, none⟩ := by
  simp [sendCommand, sendCommandStart, h]

theorem C3_inflight_noop_witness :
    sendCommand { initState with isProcessing := true } "report" (.transportError "x")
      = ⟨{ initState with isProcessing := true }, none, none⟩ :=
  C3_inflight_noop { initState with isProcessing := true } "report"
    (.transportError "x") rfl

/-- Claim C9: a submit whose trimmed text is empty is a silent no-op:
the state is returned untouched (nothing appended, nothing persisted,
no notice) and no request goes out. -/
theorem C9_empty_input_noop (st : AppState) (msg : String) (o : FetchOutcome)
    (h : jsTrim msg = "") :
    sendCommand st msg o = ⟨st, none, none⟩ := by
  by_cases hm : msg = "" ∨ st.isProcessing = true
  · simp [sendCommand, sendCommandStart, hm]
  · simp [sendCommand, sendCommandStart, hm, h]

theorem C9_empty_input_noop_witness :
    sendCommand initState "   " (.transportError "x") = ⟨initState, none, none⟩ :=
  C9_empty_input_noop initState "   " (.transportError "x") rfl

/-- Claim C4: every persist writes the last at most 20 history entries:
the stored payload has length min 20 (length of the session log) and is
a suffix of the session log, hence at most 20 records in submission
order. -/
theorem C4_bounded_persist (st : AppState) :
    (persistHistory st).stored = some (recentWindow 20 st.history) ∧
    (recentWindow 20 st.history).length = min 20 st.history.length ∧
    recentWindow 20 st.history <:+ st.history := by
  refine ⟨rfl, ?_, List.drop_suffix _ _⟩
  simp only [recentWindow, List.length_drop]
  omega

lemma sendCommandResolve_status (st : AppState) (o : FetchOutcome) :
    (sendCommandResolve st o).1.isProcessing = false ∧
    (sendCommandResolve st o).1.statusState =
      (if st.voiceEnabled then "thinking" else "idle") ∧
    (sendCommandResolve st o).1.statusCopy =
      (if st.voiceEnabled then "Listening" else "Systems Idle") := by
  have hf : ∀ s : AppState, s.voiceEnabled = st.voiceEnabled →
      (sendCommandFinally s).isProcessing = false ∧
      (sendCommandFinally s).statusState =
        (if st.voiceEnabled then "thinking" else "idle") ∧
      (sendCommandFinally s).statusCopy =
        (if st.voiceEnabled then "Listening" else "Systems Idle") := by
    intro s hs
    obtain ⟨h1, h2, h3, -⟩ := sendCommandFinally_fields s
    rw [hs] at h2 h3
    exact ⟨h1, h2, h3⟩
  match o with
  | .transportError m =>
      exact hf _ (by simp [sendCommandFailure, renderMessage, pushIntel])
  | .response status (.error m) =>
      exact hf _ (by simp [sendCommandFailure, renderMessage, pushIntel])
  | .response status (.ok data) =>
      simp only [sendCommandResolve]
      split
      · apply hf
        split <;> split <;>
          simp [pushIntel, persistHistory, renderMessage, updateStatus] <;>
          split <;> simp
      · exact hf _ (by simp [sendCommandFailure, renderMessage, pushIntel])

/-- Claim C1 (counterexample): a submit that completes while voice
input is active leaves the status state `thinking`, not `listening`:
the claimed final state `listening` is never written. -/
theorem C1_counterexample :
    (sendCommand { initState with voiceEnabled := true } "status report"
        (.response 200 (.ok (.obj [("reply", .str "All systems nominal.")])))).state.voiceEnabled
      = true ∧
    (sendCommand { initState with voiceEnabled := true } "status report"
        (.response 200 (.ok (.obj [("reply", .str "All systems nominal.")])))).state.statusState
      = "thinking" ∧
    ("thinking" : String) ≠ "listening" :=
  ⟨rfl, rfl, by decide⟩

/-- Claim C1 (amended): after any submit that passes the guard and runs
to completion, success or failure, the status resolves to state
`thinking` with copy `Listening` when voice input is active at
completion, else to state `idle` with copy `Systems Idle`, and the
in-flight flag is cleared. -/
theorem C1_amended (st : AppState) (msg : String) (o : FetchOutcome)
    (h1 : msg ≠ "") (h2 : st.isProcessing = false) (h3 : jsTrim msg ≠ "") :
    (sendCommand st msg o).state.isProcessing = false ∧
    (sendCommand st msg o).state.statusState =
      (if st.voiceEnabled then "thinking" else "idle") ∧
    (sendCommand st msg o).state.statusCopy =
      (if st.voiceEnabled then "Listening" else "Systems Idle") := by
  simp only [sendCommand, sendCommandStart_pass st msg h1 h2 h3]
  exact sendCommandResolve_status _ o

theorem C1_amended_witness :
    (sendCommand initState "ping" (.transportError "x")).state.isProcessing = false ∧
    (sendCommand initState "ping" (.transportError "x")).state.statusState =
      (if initState.voiceEnabled then "thinking" else "idle") ∧
    (sendCommand initState "ping" (.transportError "x")).state.statusCopy =
      (if initState.voiceEnabled then "Listening" else "Systems Idle") :=
  C1_amended initState "ping" (.transportError "x") (by decide) rfl (by decide)

lemma dropLast_append_pair (l : List JVal) (a b : JVal) :
    (l ++ [a, b]).dropLast = l ++ [a] := by
  rw [show l ++ [a, b] = (l ++ [a]) ++ [b] by simp, List.dropLast_concat]

lemma sendCommandResolve_failure (st : AppState) (o : FetchOutcome)
    (hf : isRemoteFailure o = true) :
    (sendCommandResolve st o).1.history = st.history ∧
    (sendCommandResolve st o).1.transcript = st.transcript.dropLast ++ [apologyMessage] ∧
    (sendCommandResolve st o).1.intel =
      [.str "Error encountered.", .str (failureDescription o)] ∧
    (sendCommandResolve st o).1.stored = st.stored ∧
    (sendCommandResolve st o).2 = none := by
  have hfail : ∀ d : String,
      (sendCommandFailure st d).history = st.history ∧
      (sendCommandFailure st d).transcript = st.transcript.dropLast ++ [apologyMessage] ∧
      (sendCommandFailure st d).intel = [.str "Error encountered.", .str d] ∧
      (sendCommandFailure st d).stored = st.stored := by
    intro d
    simp [sendCommandFailure, renderMessage, pushIntel]
  match o with
  | .transportError m =>
      obtain ⟨ha, hb, hc, hd⟩ := hfail (failureDescription (.transportError m))
      obtain ⟨-, -, -, -, h5, h6, h7, h8⟩ :=
        sendCommandFinally_fields (sendCommandFailure st (failureDescription (.transportError m)))
      exact ⟨h5.trans ha, h6.trans hb, h7.trans hc, h8.trans hd, rfl⟩
  | .response status (.error m) =>
      obtain ⟨ha, hb, hc, hd⟩ := hfail (failureDescription (.response status (.error m)))
      obtain ⟨-, -, -, -, h5, h6, h7, h8⟩ :=
        sendCommandFinally_fields (sendCommandFailure st (failureDescription (.response status (.error m))))
      exact ⟨h5.trans ha, h6.trans hb, h7.trans hc, h8.trans hd, rfl⟩
  | .response status (.ok data) =>
      have hok : responseOk status = false := by
        simpa [isRemoteFailure] using hf
      simp only [sendCommandResolve]
      rw [if_neg (by simp [hok])]
      obtain ⟨ha, hb, hc, hd⟩ := hfail (failureDescription (.response status (.ok data)))
      obtain ⟨-, -, -, -, h5, h6, h7, h8⟩ :=
        sendCommandFinally_fields (sendCommandFailure st (failureDescription (.response status (.ok data))))
      exact ⟨h5.trans ha, h6.trans hb, h7.trans hc, h8.trans hd, rfl⟩

/-- Claim C5: when the remote call fails (transport error or non-ok
status) after a guard-passing submit, history grows by exactly the user
turn, the placeholder is replaced in the transcript by the fixed
apology (which is not added to history), and the notice feed is
replaced by exactly the generic error label and the failure
description; nothing is spoken. -/
theorem C5_failure_non_retention (st : AppState) (msg : String) (o : FetchOutcome)
    (h1 : msg ≠ "") (h2 : st.isProcessing = false) (h3 : jsTrim msg ≠ "")
    (hf : isRemoteFailure o = true) :
    (sendCommand st msg o).state.history =
      st.history ++ [mkMessage "user" (.str (jsTrim msg))] ∧
    (sendCommand st msg o).state.transcript =
      st.transcript ++ [mkMessage "user" (.str (jsTrim msg)), apologyMessage] ∧
    (sendCommand st msg o).state.intel =
      [.str "Error encountered.", .str (failureDescription o)] ∧
    (sendCommand st msg o).spoken = none := by
  simp only [sendCommand, sendCommandStart_pass st msg h1 h2 h3]
  obtain ⟨ha, hb, hc, -, he⟩ := sendCommandResolve_failure
    { st with isProcessing := true,
              statusState := "thinking", statusCopy := "Processing",
              history := st.history ++ [mkMessage "user" (.str (jsTrim msg))],
              transcript := st.transcript ++
                [mkMessage "user" (.str (jsTrim msg)), placeholderMessage],
              stored := some (recentWindow 20
                (st.history ++ [mkMessage "user" (.str (jsTrim msg))])),
              inputValue := "" } o hf
  refine ⟨ha, ?_, hc, he⟩
  rw [hb]
  simp [dropLast_append_pair]

theorem C5_failure_non_retention_witness :
    (sendCommand initState "open bay doors" (.response 500 (.error "ignored"))).state.history =
      initState.history ++ [mkMessage "user" (.str (jsTrim "open bay doors"))] ∧
    (sendCommand initState "open bay doors" (.response 500 (.error "ignored"))).state.transcript =
      initState.transcript ++
        [mkMessage "user" (.str (jsTrim "open bay doors")), apologyMessage] ∧
    (sendCommand initState "open bay doors" (.response 500 (.error "ignored"))).state.intel =
      [.str "Error encountered.",
       .str (failureDescription (.response 500 (.error "ignored")))] ∧
    (sendCommand initState "open bay doors" (.response 500 (.error "ignored"))).spoken = none :=
  C5_failure_non_retention initState "open bay doors" (.response 500 (.error "ignored"))
    (by decide) rfl (by decide) rfl

lemma sendCommandResolve_success (st : AppState) (status : Nat) (data : JVal)
    (hok : responseOk status = true) (hnn : jsNullish data = false) :
    (sendCommandResolve st (.response status (.ok data))).1.history =
      st.history ++ [mkMessage "assistant" (replyContent data)] ∧
    (sendCommandResolve st (.response status (.ok data))).1.transcript =
      st.transcript.dropLast ++ [mkMessage "assistant" (replyContent data)] ∧
    (sendCommandResolve st (.response status (.ok data))).1.stored =
      some (recentWindow 20 (st.history ++ [mkMessage "assistant" (replyContent data)])) ∧
    (sendCommandResolve st (.response status (.ok data))).2 =
      (if isFalseLit (jGet data "speak") then none else some (replyContent data)) := by
  simp only [sendCommandResolve]
  rw [if_pos ⟨hok, hnn⟩]
  refine ⟨?_, ?_, ?_, rfl⟩ <;>
  · rcases hA : jGet data "actions" with _ | _ | b | n | s' | xs | flds <;>
      simp only [hA] <;>
      by_cases hI : jsTruthy (jGet data "intent") = true <;>
      first
        | (by_cases hL : xs.length = 0 <;>
            simp [hI, hL, apply_ite, sendCommandFinally, updateStatus, pushIntel,
                  persistHistory, renderMessage])
        | simp [hI, apply_ite, sendCommandFinally, updateStatus, pushIntel,
                persistHistory, renderMessage]

/-- Claim C8: on a successful response, speech is invoked with the
assistant content exactly when the `speak` field of the response is not
the literal `false`; an absent field or any other value speaks. -/
theorem C8_speak_unless_false (st : AppState) (msg : String) (status : Nat) (data : JVal)
    (h1 : msg ≠ "") (h2 : st.isProcessing = false) (h3 : jsTrim msg ≠ "")
    (hok : responseOk status = true) (hnn : jsNullish data = false) :
    (sendCommand st msg (.response status (.ok data))).spoken =
      (if isFalseLit (jGet data "speak") then none else some (replyContent data)) := by
  simp only [sendCommand, sendCommandStart_pass st msg h1 h2 h3]
  exact (sendCommandResolve_success _ status data hok hnn).2.2.2

theorem C8_speak_unless_false_witness :
    ((sendCommand initState "lights on"
        (.response 204 (.ok (.obj [("reply", .str "Done.")])))).spoken =
      (if isFalseLit (jGet (.obj [("reply", .str "Done.")]) "speak") then none
       else some (replyContent (.obj [("reply", .str "Done.")])))) ∧
    isFalseLit (jGet (JVal.obj [("reply", .str "Done.")]) "speak") = false :=
  ⟨C8_speak_unless_false initState "lights on" 204 (.obj [("reply", .str "Done.")])
    (by decide) rfl (by decide) rfl rfl, rfl⟩

/-- Claim C10: on a successful response whose `reply` field is falsy
(empty string, absent, or any other falsy value), the assistant message
appended to history has the fixed fallback content, and when speech is
not suppressed the fallback is what is spoken. -/
theorem C10_falsy_reply_fallback (st : AppState) (msg : String) (status : Nat) (data : JVal)
    (h1 : msg ≠ "") (h2 : st.isProcessing = false) (h3 : jsTrim msg ≠ "")
    (hok : responseOk status = true) (hnn : jsNullish data = false)
    (hfal : jsTruthy (jGet data "reply") = false) :
    (sendCommand st msg (.response status (.ok data))).state.history =
      st.history ++ [mkMessage "user" (.str (jsTrim msg)),
                     mkMessage "assistant" (.str "I'm here.")] ∧
    (isFalseLit (jGet data "speak") = false →
      (sendCommand st msg (.response status (.ok data))).spoken =
        some (.str "I'm here.")) := by
  have hrc : replyContent data = .str "I'm here." := by
    simp [replyContent, hfal]
  simp only [sendCommand, sendCommandStart_pass st msg h1 h2 h3]
  obtain ⟨ha, -, -, hd⟩ := sendCommandResolve_success
    { st with isProcessing := true,
              statusState := "thinking", statusCopy := "Processing",
              history := st.history ++ [mkMessage "user" (.str (jsTrim msg))],
              transcript := st.transcript ++
                [mkMessage "user" (.str (jsTrim msg)), placeholderMessage],
              stored := some (recentWindow 20
                (st.history ++ [mkMessage "user" (.str (jsTrim msg))])),
              inputValue := "" } status data hok hnn
  rw [hrc] at ha hd
  constructor
  · rw [ha]
    simp
  · intro hs
    rw [hd, if_neg (by simp [hs])]

theorem C10_falsy_reply_fallback_witness :
    (sendCommand initState "hello there"
        (.response 200 (.ok (.obj [("reply", .str "")])))).state.history =
      initState.history ++ [mkMessage "user" (.str (jsTrim "hello there")),
                            mkMessage "assistant" (.str "I'm here.")] ∧
    (isFalseLit (jGet (JVal.obj [("reply", .str "")]) "speak") = false →
      (sendCommand initState "hello there"
          (.response 200 (.ok (.obj [("reply", .str "")])))).spoken =
        some (.str "I'm here.")) :=
  C10_falsy_reply_fallback initState "hello there" 200 (.obj [("reply", .str "")])
    (by decide) rfl (by decide) rfl rfl rfl

lemma hasPlaceholderContent_mkMessage (role : String) (c : JVal) :
    hasPlaceholderContent (mkMessage role c) = isStrEq c "•••" := rfl

lemma any_false_recentWindow (n : Nat) (l : List JVal) (f : JVal → Bool)
    (h : l.any f = false) : (recentWindow n l).any f = false := by
  rw [List.any_eq_false] at h ⊢
  exact fun x hx => h x (List.drop_subset _ _ hx)

lemma sendCommandResolve_catch (st : AppState) (o : FetchOutcome)
    (hf : ∀ s d, o = .response s (.ok d) →
      ¬(responseOk s = true ∧ jsNullish d = false)) :
    (sendCommandResolve st o).1.history = st.history ∧
    (sendCommandResolve st o).1.stored = st.stored := by
  have hfail : ∀ d : String,
      (sendCommandFailure st d).history = st.history ∧
      (sendCommandFailure st d).stored = st.stored := by
    intro d
    simp [sendCommandFailure, renderMessage, pushIntel]
  match o with
  | .transportError m =>
      obtain ⟨ha, hd⟩ := hfail (failureDescription (.transportError m))
      obtain ⟨-, -, -, -, h5, -, -, h8⟩ :=
        sendCommandFinally_fields (sendCommandFailure st (failureDescription (.transportError m)))
      exact ⟨h5.trans ha, h8.trans hd⟩
  | .response status (.error m) =>
      obtain ⟨ha, hd⟩ := hfail (failureDescription (.response status (.error m)))
      obtain ⟨-, -, -, -, h5, -, -, h8⟩ :=
        sendCommandFinally_fields (sendCommandFailure st (failureDescription (.response status (.error m))))
      exact ⟨h5.trans ha, h8.trans hd⟩
  | .response status (.ok data) =>
      simp only [sendCommandResolve]
      rw [if_neg (hf status data rfl)]
      obtain ⟨ha, hd⟩ := hfail (failureDescription (.response status (.ok data)))
      obtain ⟨-, -, -, -, h5, -, -, h8⟩ :=
        sendCommandFinally_fields (sendCommandFailure st (failureDescription (.response status (.ok data))))
      exact ⟨h5.trans ha, h8.trans hd⟩

/-- Claim C6 (counterexample): submitting the placeholder text itself
as the command completes the lifecycle and leaves a history entry whose
content equals the transient placeholder content. -/
theorem C6_counterexample :
    ((sendCommand initState "•••"
        (.response 200 (.ok (.obj [("reply", .str "Understood.")])))).request).isSome = true ∧
    ((sendCommand initState "•••"
        (.response 200 (.ok (.obj [("reply", .str "Understood.")])))).state.history.any
      hasPlaceholderContent) = true :=
  ⟨rfl, rfl⟩

/-- Claim C6 (amended): the placeholder message itself is never
appended to history or persisted: after a guard-passing submit whose
prior history is free of placeholder-content entries and whose
submitted text and assistant reply differ from the placeholder text,
history and the persisted payload contain no placeholder-content
entry. -/
theorem C6_amended (st : AppState) (msg : String) (o : FetchOutcome)
    (h1 : msg ≠ "") (h2 : st.isProcessing = false) (h3 : jsTrim msg ≠ "")
    (hclean : st.history.any hasPlaceholderContent = false)
    (hmsg : jsTrim msg ≠ "•••")
    (hreply : ∀ s d, o = FetchOutcome.response s (Except.ok d) →
      isStrEq (replyContent d) "•••" = false) :
    (sendCommand st msg o).state.history.any hasPlaceholderContent = false ∧
    ∀ p, (sendCommand st msg o).state.stored = some p →
      p.any hasPlaceholderContent = false := by
  have huser : hasPlaceholderContent (mkMessage "user" (.str (jsTrim msg))) = false := by
    rw [hasPlaceholderContent_mkMessage]
    simp [isStrEq, hmsg]
  simp only [sendCommand, sendCommandStart_pass st msg h1 h2 h3]
  by_cases hS : ∃ s d, o = FetchOutcome.response s (Except.ok d) ∧
      responseOk s = true ∧ jsNullish d = false
  · obtain ⟨s, d, rfl, hok, hnn⟩ := hS
    have hass : hasPlaceholderContent (mkMessage "assistant" (replyContent d)) = false := by
      rw [hasPlaceholderContent_mkMessage]
      exact hreply s d rfl
    obtain ⟨ha, -, hc, -⟩ := sendCommandResolve_success
      { st with isProcessing := true,
                statusState := "thinking", statusCopy := "Processing",
                history := st.history ++ [mkMessage "user" (.str (jsTrim msg))],
                transcript := st.transcript ++
                  [mkMessage "user" (.str (jsTrim msg)), placeholderMessage],
                stored := some (recentWindow 20
                  (st.history ++ [mkMessage "user" (.str (jsTrim msg))])),
                inputValue := "" } s d hok hnn
    have hany : (st.history ++ [mkMessage "user" (.str (jsTrim msg))] ++
        [mkMessage "assistant" (replyContent d)]).any hasPlaceholderContent = false := by
      simp [List.any_append, hclean, huser, hass]
    constructor
    · rw [ha]
      simpa using hany
    · intro p hp
      rw [hc] at hp
      obtain rfl : recentWindow 20 (st.history ++ [mkMessage "user" (.str (jsTrim msg))] ++
          [mkMessage "assistant" (replyContent d)]) = p := by
        simpa using hp
      exact any_false_recentWindow _ _ _ hany
  · have hf : ∀ s d, o = FetchOutcome.response s (Except.ok d) →
        ¬(responseOk s = true ∧ jsNullish d = false) := by
      intro s d ho hc
      exact hS ⟨s, d, ho, hc⟩
    obtain ⟨ha, hb⟩ := sendCommandResolve_catch
      { st with isProcessing := true,
                statusState := "thinking", statusCopy := "Processing",
                history := st.history ++ [mkMessage "user" (.str (jsTrim msg))],
                transcript := st.transcript ++
                  [mkMessage "user" (.str (jsTrim msg)), placeholderMessage],
                stored := some (recentWindow 20
                  (st.history ++ [mkMessage "user" (.str (jsTrim msg))])),
                inputValue := "" } o hf
    have hany : (st.history ++ [mkMessage "user" (.str (jsTrim msg))]).any
        hasPlaceholderContent = false := by
      simp [List.any_append, hclean, huser]
    constructor
    · rw [ha]
      simpa using hany
    · intro p hp
      rw [hb] at hp
      obtain rfl : recentWindow 20 (st.history ++ [mkMessage "user" (.str (jsTrim msg))]) = p := by
        simpa using hp
      exact any_false_recentWindow _ _ _ hany

theorem C6_amended_witness :
    (sendCommand initState "systems check" (.transportError "offline")).state.history.any
      hasPlaceholderContent = false ∧
    ∀ p, (sendCommand initState "systems check" (.transportError "offline")).state.stored
        = some p → p.any hasPlaceholderContent = false :=
  C6_amended initState "systems check" (.transportError "offline")
    (by decide) rfl (by decide) rfl (by decide) (fun s d h => by cases h)

/-- Claim C2 (counterexample): toggling voice input off while a request
is in flight writes a non-thinking status during the in-flight window:
after enabling voice, submitting, and toggling voice off, the request
is still in flight but the status state is not `thinking`. -/
theorem C2_counterexample :
    (run initState [.voiceToggle true, .submitStart "hello", .voiceToggle true]).isProcessing
      = true ∧
    (run initState [.voiceToggle true, .submitStart "hello", .voiceToggle true]).statusState
      = "idle" ∧
    ("idle" : String) ≠ "thinking" :=
  ⟨rfl, rfl, by decide⟩

/-- Claim C2 (amended): the status state stays `thinking` throughout
the in-flight window under every event except an explicit voice
toggle-off, which writes `idle` mid-flight: any single step from a
state satisfying the in-flight-implies-thinking invariant preserves the
invariant, provided the event is not a voice toggle-off during
flight. -/
theorem C2_amended (st : AppState) (e : UiEvent)
    (hinv : st.isProcessing = true → st.statusState = "thinking")
    (hno : isVoiceOffToggleInFlight st e = false) :
    (step st e).isProcessing = true → (step st e).statusState = "thinking" := by
  cases e with
  | submitStart msg =>
      simp only [step, sendCommandStart]
      split
      · exact hinv
      · split
        · exact hinv
        · intro
          rfl
  | submitResolve o =>
      simp only [step]
      split
      · intro h
        obtain ⟨hp, -, -⟩ := sendCommandResolve_status st o
        rw [hp] at h
        cases h
      · exact hinv
  | voiceToggle supported =>
      simp only [step, toggleVoiceInput]
      by_cases hs : supported = true
      · simp only [hs, Bool.not_true]
        by_cases hv : st.voiceEnabled = true
        · have hp : st.isProcessing = false := by
            simpa [isVoiceOffToggleInFlight, hs, hv] using hno
          simp [hv, updateStatus, hp]
        · simp only [hv]
          simp only [Bool.false_eq_true, if_false]
          · exact fun h => hinv h
      · have hs' : supported = false := by
          revert hs
          cases supported <;> simp
        simp only [hs', Bool.not_false, if_true]
        exact hinv
  | recStart =>
      intro
      rfl
  | recEnd =>
      simp only [step, recognitionOnEnd]
      split
      · exact hinv
      · intro h
        simp only [updateStatus] at h
        simp_all
  | recError =>
      simp only [step, recognitionOnError]
      split
      · exact hinv
      · intro h
        simp only [updateStatus] at h
        simp_all
  | recResult txt =>
      simp only [step]
      split
      · exact hinv
      · simp only [sendCommandStart]
        split
        · exact hinv
        · split
          · exact hinv
          · intro
            rfl

theorem C2_amended_witness :
    ((initState.isProcessing = true → initState.statusState = "thinking") ∧
     isVoiceOffToggleInFlight initState .recStart = false) ∧
    ((step initState .recStart).isProcessing = true →
      (step initState .recStart).statusState = "thinking") :=
  ⟨⟨by decide, rfl⟩, C2_amended initState .recStart (by decide) rfl⟩

/-- Claim C7 (counterexample): a stored JSON array whose single element
is the number 1 is not a well-formed sequence of Message-shaped
records, yet restore loads it as-is instead of resetting history to
empty. -/
theorem C7_counterexample :
    (restoreHistory initState (.value (.arr [.num 1]))).history = [.num 1] ∧
    isMessageShaped (.num 1) = false ∧
    ([JVal.num 1] : List JVal) ≠ [] :=
  ⟨rfl, rfl, by simp⟩

/-- Claim C7 (amended): restore leaves history unchanged on an absent
key, resets it to empty on an unparseable value or a non-array parse,
loads an array verbatim regardless of the shape of its elements, and
resets to empty only when replaying an element of the array throws —
the element is nullish, or its role makes the class token invalid
(empty or containing whitespace) — and the catch clears history. -/
theorem C7_amended (st : AppState) (r : StoredValue) :
    (restoreHistory st r).history = restoreHistorySpec st.history r := by
  match r with
  | .absent => rfl
  | .malformed => rfl
  | .value v =>
      cases v with
      | arr xs =>
          simp only [restoreHistory, restoreHistorySpec]
          by_cases h : xs.any renderThrows = true
          · simp [h]
          · simp only [Bool.not_eq_true] at h
            simp only [h, Bool.false_eq_true, if_false]
            by_cases hl : xs.length = 0
            · simp [hl]
            · rw [if_neg hl]
              simp only [pushIntel]
              split <;> rfl
      | null => rfl
      | undefined => rfl
      | bool b => rfl
      | num n => rfl
      | str s => rfl
      | obj flds => rfl
